import Mathlib

/-!
Verification of the production reconciliation and allocation engine.

The definitions below are shallow embeddings of the Python source:

* `src/seq.py`                — Day Seq UPRT correction utility
* `src/production_update.py`  — initial population: first-production filter,
                                sequence counters, cumulative sums
* `src/monthly.py`            — monthly allocation factors and the daily
                                projection updates applied to PCE_CDA
* `src/cda.py`, `src/run_daily.py` — feed pulls, first-production dates,
                                daily spine, multi-source merge

Daily measurement values are embedded as `Option ℚ` (a missing / NULL / NaN
cell is `none`).  Calendar dates are embedded as `ℕ`, the number of days
since the global default start date 2009-01-01 (so that date constant is
day `0`).  Pandas `fillna(0)` is `Option.getD · 0`.
-/

/-- Pandas `fillna(0)` applied to one cell: a missing value becomes `0`. -/
def fillZero (v : Option ℚ) : ℚ := v.getD 0

/-- Inner `while` loop of `recalculate_day_seq_uprt` (src/seq.py lines 83-85):
starting inside a sub-threshold streak, emit `lastGood` for every further
consecutive day with gas `< 1`, and return the emitted values together with
the remaining (unconsumed) days. -/
def lowStreak (lastGood : ℕ) : List ℚ → List ℕ × List ℚ
  | [] => ([], [])
  | g :: rest =>
    if g < 1 then
      (lastGood :: (lowStreak lastGood rest).1, (lowStreak lastGood rest).2)
    else ([], g :: rest)

theorem lowStreak_snd_length_le (lastGood : ℕ) :
    ∀ l : List ℚ, (lowStreak lastGood l).2.length ≤ l.length := by
  intro l
  induction l with
  | nil => simp [lowStreak]
  | cons g rest ih =>
    by_cases h : g < 1
    · simpa [lowStreak, h] using Nat.le_succ_of_le ih
    · simp [lowStreak, h]

/-- Outer `while` loop of `recalculate_day_seq_uprt` (src/seq.py lines 67-88):
on a day with gas `≥ 1` emit the counter and increment it; on a day with gas
`< 1` emit `counter - 1` for that day, consume the whole contiguous
sub-threshold streak via `lowStreak`, and continue with the counter
unchanged. -/
def recalcLoop (counter : ℕ) : List ℚ → List ℕ
  | [] => []
  | g :: rest =>
    if 1 ≤ g then
      counter :: recalcLoop (counter + 1) rest
    else
      (counter - 1) ::
        ((lowStreak (counter - 1) rest).1 ++
          recalcLoop counter (lowStreak (counter - 1) rest).2)
termination_by l => l.length
decreasing_by
  · simp only [List.length_cons]
    omega
  · simp only [List.length_cons]
    exact Nat.lt_succ_of_le (lowStreak_snd_length_le _ _)

/-- `recalculate_day_seq_uprt` (src/seq.py lines 46-103) applied to one
well's daily wellhead-gas series in ascending date order: nulls are filled
with 0 (line 64) and the counter starts at 1 (line 67). -/
def recalculate_day_seq_uprt (gas : List (Option ℚ)) : List ℕ :=
  recalcLoop 1 (gas.map fillZero)

/-- The canonical Day Seq UPRT state machine as the specification words it:
the counter starts at 1; a qualifying day (gas `≥ 1`) emits the counter and
increments it; a non-qualifying day emits `counter - 1` and leaves the
counter unchanged, so every day of a contiguous sub-threshold run emits the
same `counter - 1`. -/
def canonicalUPRT (counter : ℕ) : List ℚ → List ℕ
  | [] => []
  | g :: rest =>
    if 1 ≤ g then counter :: canonicalUPRT (counter + 1) rest
    else (counter - 1) :: canonicalUPRT counter rest

theorem lowStreak_append_canonical (c : ℕ) :
    ∀ l : List ℚ,
      (lowStreak (c - 1) l).1 ++ canonicalUPRT c (lowStreak (c - 1) l).2 =
        canonicalUPRT c l := by
  intro l
  induction l with
  | nil => simp [lowStreak, canonicalUPRT]
  | cons g rest ih =>
    by_cases h : g < 1
    · have h' : ¬ 1 ≤ g := not_le.mpr h
      simp [lowStreak, canonicalUPRT, h, h', ih]
    · have h' : 1 ≤ g := not_lt.mp h
      simp [lowStreak, canonicalUPRT, h, h']

theorem recalcLoop_eq_canonicalUPRT_bounded :
    ∀ (n : ℕ) (l : List ℚ), l.length ≤ n → ∀ c, recalcLoop c l = canonicalUPRT c l := by
  intro n
  induction n with
  | zero =>
    intro l hl c
    have hnil : l = [] := List.length_eq_zero.mp (Nat.le_zero.mp hl)
    subst hnil
    simp [recalcLoop, canonicalUPRT]
  | succ n ih =>
    intro l hl c
    cases l with
    | nil => simp [recalcLoop, canonicalUPRT]
    | cons g rest =>
      have hrest : rest.length ≤ n := by
        simpa [List.length_cons] using Nat.lt_succ_iff.mp (Nat.lt_of_lt_of_le (Nat.lt_succ_of_le (Nat.le_refl _)) hl)
      by_cases h : 1 ≤ g
      · simp only [recalcLoop, canonicalUPRT, if_pos h]
        exact congrArg _ (ih rest hrest (c + 1))
      · simp only [recalcLoop, canonicalUPRT, if_neg h]
        have hlen : (lowStreak (c - 1) rest).2.length ≤ n :=
          le_trans (lowStreak_snd_length_le _ _) hrest
        rw [ih _ hlen c, lowStreak_append_canonical]

theorem recalcLoop_eq_canonicalUPRT (l : List ℚ) (c : ℕ) :
    recalcLoop c l = canonicalUPRT c l :=
  recalcLoop_eq_canonicalUPRT_bounded l.length l (Nat.le_refl _) c

/-- C1: for every well, processing the daily wellhead-gas series in ascending
date order with nulls treated as 0, the recalculation utility's emitted
Day Seq UPRT follows the canonical state machine (counter starts at 1; a day
with gas ≥ 1 emits the counter and increments it; a day with gas < 1 emits
counter − 1 and leaves the counter unchanged, so every day of a contiguous
sub-threshold run emits the same value); in particular
[0, 0, 5, 6, 0, 7] yields [0, 0, 1, 2, 2, 3], with 0 on leading
sub-threshold days. -/
theorem recalc_day_seq_uprt_follows_canonical_state_machine :
    (∀ gas : List (Option ℚ),
        recalculate_day_seq_uprt gas = canonicalUPRT 1 (gas.map fillZero)) ∧
      recalculate_day_seq_uprt [some 0, some 0, some 5, some 6, some 0, some 7] =
        [0, 0, 1, 2, 2, 3] := by
  constructor
  · intro gas
    exact recalcLoop_eq_canonicalUPRT _ _
  · show recalcLoop 1 _ = _
    rw [recalcLoop_eq_canonicalUPRT]
    decide

/-- Day Seq UPRT loop of `calculate_sequences`
(src/production_update.py lines 272-283): nulls filled with 0, counter
starts at 1; a day with gas > 0 emits the counter and increments it; a day
with gas ≤ 0 emits `counter - 1` if the counter exceeds 1 and 1 otherwise,
leaving the counter unchanged. -/
def calcSeqLoop (counter : ℕ) : List ℚ → List ℕ
  | [] => []
  | v :: rest =>
    if 0 < v then counter :: calcSeqLoop (counter + 1) rest
    else (if 1 < counter then counter - 1 else 1) :: calcSeqLoop counter rest

/-- Day Seq UPRT column produced by `calculate_sequences`
(src/production_update.py lines 249-288) for one well's ordered series. -/
def calculate_sequences_day_seq_uprt (gas : List (Option ℚ)) : List ℕ :=
  calcSeqLoop 1 (gas.map fillZero)

/-- Days Seq column produced by `calculate_sequences`
(src/production_update.py line 269): a simple 1-based ordinal. -/
def calculate_sequences_days_seq (n : ℕ) : List ℕ :=
  List.range' 1 n

/-- C2: the two Day Seq UPRT implementations are not equivalent — there is a
daily gas series on which the sequence-correction utility
(`recalculate_day_seq_uprt`, threshold gas ≥ 1, leading sub-threshold days
emit 0) and the initial population routine (`calculate_sequences`, threshold
gas > 0, leading sub-threshold days emit 1) emit different sequences. -/
theorem day_seq_uprt_implementations_differ :
    ∃ gas : List (Option ℚ),
      recalculate_day_seq_uprt gas ≠ calculate_sequences_day_seq_uprt gas := by
  refine ⟨[some 0, some 0, some 5, some 6, some 0, some 7], ?_⟩
  show recalcLoop 1 _ ≠ _
  rw [recalcLoop_eq_canonicalUPRT]
  decide

/-- In-place wellhead-gas replacement performed by
`filter_to_first_production` (src/production_update.py lines 218-227): a
present, positive wellhead value of at most 2 is replaced by the gathered
value, a missing or zero wellhead value is replaced by the gathered value
(which may itself be missing), and any other wellhead value is kept. -/
def substituteGasWH (gasVal gatheredVal : Option ℚ) : Option ℚ :=
  match gasVal with
  | some g =>
    if 0 < g ∧ g ≤ 2 then gatheredVal
    else if g = 0 then gatheredVal
    else some g
  | none => gatheredVal

/-- SQL comparison `x > 0` under NULL semantics: a NULL operand compares
unknown, which `IIF` treats as false. -/
def sqlGtZero : Option ℚ → Bool
  | some x => decide (0 < x)
  | none => false

/-- SQL `IIF(x > 0, x, fallback)` as used by the monthly daily-projection
updates (src/monthly.py lines 832, 844, 864). -/
def iifPositiveElse (x fallback : Option ℚ) : Option ℚ :=
  if sqlGtZero x then x else fallback

/-- SQL multiplication of a non-NULL parameter with a column value: NULL
propagates. -/
def sqlScale (c : ℚ) (v : Option ℚ) : Option ℚ :=
  v.map (fun x => c * x)

/-- SQL division of two column values: NULL if either operand is NULL. -/
def sqlDivide (a b : Option ℚ) : Option ℚ :=
  match a, b with
  | some x, some y => some (x / y)
  | _, _ => none

/-- Baseline-gas (or baseline-condensate) for a day as the specification
words it: the gathered value is substituted whenever the wellhead value is
missing, zero, or positive but at most the low-flow instrument threshold of
2 units; otherwise the wellhead value is used. -/
def baselineGasSpec (wellhead gathered : Option ℚ) : Option ℚ :=
  match wellhead with
  | none => gathered
  | some g => if g = 0 ∨ (0 < g ∧ g ≤ 2) then gathered else some g

/-- C3 counterexample: on a day with wellhead gas 1 (inside the claimed
dead-band (0, 2]) and gathered gas 5, the first-production filter
substitutes the gathered value but the monthly daily-projection baseline
`IIF(GasWH_Production > 0, ...)` keeps the wellhead value, so the
substitution is not applied consistently at both read sites. -/
theorem monthly_projection_skips_deadband_substitution :
    substituteGasWH (some 1) (some 5) = some 5 ∧
      iifPositiveElse (some 1) (some 5) = some 1 ∧
      iifPositiveElse (some 1) (some 5) ≠ baselineGasSpec (some 1) (some 5) := by
  refine ⟨by decide, by decide, by decide⟩

/-- C3 amended: the first-production filter substitutes the gathered volume
exactly when the wellhead value is missing, zero, or positive but ≤ 2
units, while the monthly daily-projection updates substitute the gathered
volume exactly when the wellhead value is not positive (missing, zero or
negative) — so a day with wellhead gas in (0, 2] uses the wellhead value,
not the gathered value, in the daily projection. -/
theorem baseline_substitution_read_sites :
    ∀ gasVal gatheredVal : Option ℚ,
      substituteGasWH gasVal gatheredVal = baselineGasSpec gasVal gatheredVal ∧
        iifPositiveElse gasVal gatheredVal =
          (if sqlGtZero gasVal then gasVal else gatheredVal) := by
  intro gasVal gatheredVal
  constructor
  · cases gasVal with
    | none => rfl
    | some g =>
      by_cases h1 : 0 < g ∧ g ≤ 2
      · simp [substituteGasWH, baselineGasSpec, h1]
      · by_cases h2 : g = 0
        · simp [substituteGasWH, baselineGasSpec, h1, h2]
        · simp [substituteGasWH, baselineGasSpec, h1, h2]
  · rfl

/-- Coercion applied to a monthly SUM aggregate fetched from the database
(src/monthly.py lines 376-383): a missing aggregate becomes 0. -/
def cdaMonthlyTotal (v : Option ℚ) : ℚ := v.getD 0

/-- WH_to_S2_AllocFactor (src/monthly.py lines 709-713). -/
def wh_to_s2_alloc_factor (s2Gas prodviewWhGas : ℚ) : ℚ :=
  if prodviewWhGas = 0 then 1 else s2Gas / prodviewWhGas

/-- WH_to_Sales_AllocFactor (src/monthly.py lines 715-719). -/
def wh_to_sales_alloc_factor (salesGas prodviewWhGas : ℚ) : ℚ :=
  if prodviewWhGas = 0 then 1 else salesGas / prodviewWhGas

/-- WH_to_Sales_Cond_AllocFactor (src/monthly.py lines 721-725). -/
def wh_to_sales_cond_alloc_factor (salesCond prodviewWhCond : ℚ) : ℚ :=
  if prodviewWhCond = 0 then 1 else salesCond / prodviewWhCond

/-- Gathered_to_S2_Gas (src/monthly.py lines 730-735; stored as text, the
numeric value is embedded). -/
def gathered_to_s2_gas (s2Gas gatheredGas : ℚ) : ℚ :=
  if gatheredGas = 0 then 1 else s2Gas / gatheredGas

/-- Gathered_to_Sales (src/monthly.py lines 737-742; stored as text). -/
def gathered_to_sales (salesGas gatheredGas : ℚ) : ℚ :=
  if gatheredGas = 0 then 1 else salesGas / gatheredGas

/-- Gathered_to_Sales_Condensate (src/monthly.py lines 744-749; stored as
text). -/
def gathered_to_sales_condensate (salesCond gatheredCond : ℚ) : ℚ :=
  if gatheredCond = 0 then 1 else salesCond / gatheredCond

/-- The allocation-factor policy the code actually implements: numerator
over denominator, with default 1.0 exactly when the denominator is zero. -/
def allocFactorPolicy (num den : ℚ) : ℚ :=
  if den = 0 then 1 else num / den

/-- C4 counterexample: with monthly S2 gas 10 and a monthly wellhead-gas
total of −1 (non-positive), the WH→S2 factor is −10, not the claimed
default 1.0 — the guard tests equality with zero, not ≤ 0. -/
theorem alloc_factor_negative_denominator_not_defaulted :
    wh_to_s2_alloc_factor 10 (-1) = -10 ∧
      (-1 : ℚ) ≤ 0 ∧ wh_to_s2_alloc_factor 10 (-1) ≠ 1 := by
  norm_num [wh_to_s2_alloc_factor]

/-- C4 amended: each of the six monthly allocation factors equals its
numerator divided by its denominator, defaulting to 1.0 exactly when its
monthly denominator equals 0 — which covers a missing monthly aggregate,
coerced to 0 before the guard — so a zero or missing denominator never
reaches the division (Scenario B: wellhead total 0, S2 gas 10 gives factor
1.0); a negative denominator is not guarded and yields the signed
quotient. -/
theorem alloc_factors_divide_with_zero_guard :
    ∀ (num : ℚ) (denom : Option ℚ),
      wh_to_s2_alloc_factor num (cdaMonthlyTotal denom) =
          allocFactorPolicy num (cdaMonthlyTotal denom) ∧
        wh_to_sales_alloc_factor num (cdaMonthlyTotal denom) =
          allocFactorPolicy num (cdaMonthlyTotal denom) ∧
        wh_to_sales_cond_alloc_factor num (cdaMonthlyTotal denom) =
          allocFactorPolicy num (cdaMonthlyTotal denom) ∧
        gathered_to_s2_gas num (cdaMonthlyTotal denom) =
          allocFactorPolicy num (cdaMonthlyTotal denom) ∧
        gathered_to_sales num (cdaMonthlyTotal denom) =
          allocFactorPolicy num (cdaMonthlyTotal denom) ∧
        gathered_to_sales_condensate num (cdaMonthlyTotal denom) =
          allocFactorPolicy num (cdaMonthlyTotal denom) ∧
        wh_to_s2_alloc_factor num (cdaMonthlyTotal none) = 1 ∧
        wh_to_s2_alloc_factor 10 0 = 1 := by
  intro num denom
  refine ⟨rfl, rfl, rfl, rfl, rfl, rfl, rfl, by norm_num [wh_to_s2_alloc_factor]⟩

/-- One PCE_CDA daily row as touched by the monthly daily-projection
updates (src/monthly.py lines 813-880). -/
structure CdaDayRow where
  gasWH : Option ℚ
  gatheredGas : Option ℚ
  condWH : Option ℚ
  gatheredCond : Option ℚ
  gasS2 : Option ℚ
  gasSales : Option ℚ
  condSales : Option ℚ
  salesCGRField : Option ℚ
deriving DecidableEq

/-- Update 1 (src/monthly.py lines 829-835): Gas - S2 Production is the
WH→S2 factor times the wellhead gas if positive, else the gathered gas. -/
def updateGasS2 (whToS2 : ℚ) (r : CdaDayRow) : CdaDayRow :=
  { r with gasS2 := sqlScale whToS2 (iifPositiveElse r.gasWH r.gatheredGas) }

/-- Update 2 (src/monthly.py lines 840-855): Gas - Sales Production is the
WH→Sales factor times the same baseline when the monthly sales-gas volume
is positive, otherwise the monthly volume spread evenly over the days of
the month. -/
def updateGasSales (whToSales monthlySalesGas : ℚ) (daysInMonth : ℕ)
    (r : CdaDayRow) : CdaDayRow :=
  if 0 < monthlySalesGas then
    { r with gasSales := sqlScale whToSales (iifPositiveElse r.gasWH r.gatheredGas) }
  else
    { r with gasSales := some (monthlySalesGas / (daysInMonth : ℚ)) }

/-- Update 3 (src/monthly.py lines 861-867): Condensate - Sales Production
is the WH→Sales-condensate factor times the wellhead condensate if
positive, else the gathered condensate. -/
def updateCondSales (whToSalesCond : ℚ) (r : CdaDayRow) : CdaDayRow :=
  { r with condSales := sqlScale whToSalesCond (iifPositiveElse r.condWH r.gatheredCond) }

/-- Update 4 (src/monthly.py lines 872-880): Sales CGR Ratio is recomputed
from the already-updated sales fields of the same row. -/
def updateSalesCGR (r : CdaDayRow) : CdaDayRow :=
  { r with salesCGRField :=
      if sqlGtZero r.gasSales then sqlDivide r.condSales r.gasSales else some 0 }

/-- The per-day effect of the four sequential PCE_CDA UPDATE statements of
`combined_monthly_loader` (src/monthly.py lines 813-880) for one
well-month. -/
def monthly_projection_updates (whToS2 whToSales whToSalesCond monthlySalesGas : ℚ)
    (daysInMonth : ℕ) (r : CdaDayRow) : CdaDayRow :=
  updateSalesCGR
    (updateCondSales whToSalesCond
      (updateGasSales whToSales monthlySalesGas daysInMonth
        (updateGasS2 whToS2 r)))

/-- C5 counterexample: on a day with wellhead gas 1 (inside the dead-band
(0, 2]) and gathered gas 5, with all factors 1 and positive monthly sales
gas, the projected S2 gas is 1 — the factor times the wellhead value — not
the factor times the specification's baseline-gas (which substitutes the
gathered value 5 on such a day). -/
theorem daily_projection_not_on_spec_baseline :
    (monthly_projection_updates 1 1 1 1 30
        ⟨some 1, some 5, none, none, none, none, none, none⟩).gasS2 = some 1 ∧
      sqlScale 1 (baselineGasSpec (some 1) (some 5)) = some 5 ∧
      (monthly_projection_updates 1 1 1 1 30
          ⟨some 1, some 5, none, none, none, none, none, none⟩).gasS2 ≠
        sqlScale 1 (baselineGasSpec (some 1) (some 5)) := by
  refine ⟨?_, ?_, ?_⟩ <;>
    norm_num [monthly_projection_updates, updateGasS2, updateGasSales,
      updateCondSales, updateSalesCGR, sqlScale, baselineGasSpec,
      iifPositiveElse, sqlGtZero, sqlDivide]

/-- C5 amended: for every well-month and day, with the projection baseline
the code actually reads (wellhead volume if positive, else gathered volume,
with no 2-unit dead-band): S2-gas(day) = WH→S2 factor × baseline-gas(day);
Sales-gas(day) = WH→Sales-gas factor × baseline-gas(day) if the month's
total sales-gas volume is positive, otherwise the monthly sales-gas volume
divided evenly across the days of the month (so a month with total
sales-gas 0 yields Sales-gas 0 on each day); Sales-condensate(day) =
WH→Sales-condensate factor × baseline-condensate(day); and Sales-CGR(day) =
Sales-condensate(day) / Sales-gas(day) if Sales-gas(day) > 0, else 0. -/
theorem daily_projection_formulas :
    ∀ (f1 f2 f3 ms : ℚ) (days : ℕ) (r : CdaDayRow),
      (monthly_projection_updates f1 f2 f3 ms days r).gasS2 =
          sqlScale f1 (iifPositiveElse r.gasWH r.gatheredGas) ∧
        (monthly_projection_updates f1 f2 f3 ms days r).gasSales =
          (if 0 < ms then sqlScale f2 (iifPositiveElse r.gasWH r.gatheredGas)
            else some (ms / (days : ℚ))) ∧
        (monthly_projection_updates f1 f2 f3 ms days r).condSales =
          sqlScale f3 (iifPositiveElse r.condWH r.gatheredCond) ∧
        (monthly_projection_updates f1 f2 f3 ms days r).salesCGRField =
          (if sqlGtZero (monthly_projection_updates f1 f2 f3 ms days r).gasSales then
              sqlDivide (monthly_projection_updates f1 f2 f3 ms days r).condSales
                (monthly_projection_updates f1 f2 f3 ms days r).gasSales
            else some 0) ∧
        (monthly_projection_updates f1 f2 f3 0 days r).gasSales = some 0 := by
  intro f1 f2 f3 ms days r
  by_cases hms : 0 < ms
  · refine ⟨?_, ?_, ?_, ?_, ?_⟩ <;>
      simp [monthly_projection_updates, updateGasS2, updateGasSales,
        updateCondSales, updateSalesCGR, hms]
  · refine ⟨?_, ?_, ?_, ?_, ?_⟩ <;>
      simp [monthly_projection_updates, updateGasS2, updateGasSales,
        updateCondSales, updateSalesCGR, hms]

/-- Running-sum loop of `calculate_cumulatives`
(src/production_update.py lines 315-323): for one well and one metric the
daily values, nulls coerced to 0, are cumulatively summed in ascending
date order starting from `acc`. -/
def cumsumFrom (acc : ℚ) : List ℚ → List ℚ
  | [] => []
  | v :: rest => (acc + v) :: cumsumFrom (acc + v) rest

/-- Cumulative column produced by `calculate_cumulatives`
(src/production_update.py lines 290-330) for one well and one metric:
pandas `cumsum()` over the `fillna(0)` series. -/
def calculate_cumulatives (vals : List (Option ℚ)) : List ℚ :=
  cumsumFrom 0 (vals.map fillZero)

theorem cumsumFrom_length (l : List ℚ) :
    ∀ acc : ℚ, (cumsumFrom acc l).length = l.length := by
  induction l with
  | nil => intro acc; rfl
  | cons v rest ih => intro acc; simp [cumsumFrom, ih]

theorem cumsumFrom_getD_succ :
    ∀ (l : List ℚ) (acc : ℚ) (i : ℕ), i + 1 < l.length →
      (cumsumFrom acc l).getD (i + 1) 0 =
        (cumsumFrom acc l).getD i 0 + l.getD (i + 1) 0 := by
  intro l
  induction l with
  | nil => intro acc i h; simp at h
  | cons v rest ih =>
    intro acc i h
    cases i with
    | zero =>
      cases rest with
      | nil => simp at h
      | cons w t => simp [cumsumFrom]
    | succ j =>
      have h' : j + 1 < rest.length := by
        simpa [List.length_cons] using Nat.lt_of_succ_lt_succ h
      simpa [cumsumFrom] using ih (acc + v) j h'

theorem cumsumFrom_chain :
    ∀ (l : List ℚ) (acc : ℚ), (∀ v ∈ l, 0 ≤ v) →
      List.Chain' (· ≤ ·) (cumsumFrom acc l) := by
  intro l
  induction l with
  | nil => intro acc _; simp [cumsumFrom]
  | cons v rest ih =>
    intro acc h
    cases rest with
    | nil => simp [cumsumFrom]
    | cons w t =>
      have hw : 0 ≤ w := h w (by simp)
      have hrest : ∀ x ∈ w :: t, 0 ≤ x := fun x hx => h x (List.mem_cons_of_mem _ hx)
      have htail := ih (acc + v) hrest
      rw [show cumsumFrom acc (v :: w :: t) =
        (acc + v) :: cumsumFrom (acc + v) (w :: t) from rfl]
      rw [show cumsumFrom (acc + v) (w :: t) =
        (acc + v + w) :: cumsumFrom (acc + v + w) t from rfl]
      rw [List.chain'_cons]
      refine ⟨by linarith, ?_⟩
      simpa [cumsumFrom] using htail

theorem getD_map_fillZero (vals : List (Option ℚ)) (i : ℕ) (h : i < vals.length) :
    (vals.map fillZero).getD i 0 = fillZero (vals.getD i none) := by
  rw [List.getD_eq_getElem?_getD, List.getD_eq_getElem?_getD, List.getElem?_map,
    List.getElem?_eq_getElem h]
  simp

/-- C8: for every well, metric and ascending-date series, the cumulative
column satisfies Cumulative(first day) = first value or 0 if null,
Cumulative(day i+1) = Cumulative(day i) + (value at day i+1, or 0 if null)
— a null day contributes zero without resetting the running total — and
the cumulative series is non-decreasing whenever every (null-filled) value
of the metric is non-negative. -/
theorem cumulative_sums_recurrence :
    ∀ vals : List (Option ℚ),
      (calculate_cumulatives vals).length = vals.length ∧
        (∀ (v : Option ℚ) (rest : List (Option ℚ)), vals = v :: rest →
          (calculate_cumulatives vals).getD 0 0 = fillZero v) ∧
        (∀ i : ℕ, i + 1 < vals.length →
          (calculate_cumulatives vals).getD (i + 1) 0 =
            (calculate_cumulatives vals).getD i 0 + fillZero (vals.getD (i + 1) none)) ∧
        ((∀ v ∈ vals, 0 ≤ fillZero v) →
          List.Chain' (· ≤ ·) (calculate_cumulatives vals)) := by
  intro vals
  refine ⟨?_, ?_, ?_, ?_⟩
  · simp [calculate_cumulatives, cumsumFrom_length]
  · intro v rest hv
    subst hv
    simp [calculate_cumulatives, cumsumFrom]
  · intro i hi
    have hlen : i + 1 < (vals.map fillZero).length := by simpa using hi
    rw [calculate_cumulatives, cumsumFrom_getD_succ _ _ _ hlen,
      getD_map_fillZero _ _ (by simpa using hi)]
  · intro h
    exact cumsumFrom_chain _ _ (by
      intro x hx
      rcases List.mem_map.mp hx with ⟨v, hv, rfl⟩
      exact h v hv)

/-- Witness for C8 at the concrete series [1, null, 2]. -/
theorem cumulative_sums_recurrence_witness :
    (calculate_cumulatives [some 1, none, some 2]).getD 0 0 = fillZero (some 1) ∧
      (calculate_cumulatives [some 1, none, some 2]).getD 1 0 =
        (calculate_cumulatives [some 1, none, some 2]).getD 0 0 +
          fillZero ([some (1 : ℚ), none, some 2].getD 1 none) ∧
      List.Chain' (· ≤ ·) (calculate_cumulatives [some 1, none, some 2]) :=
  ⟨(cumulative_sums_recurrence [some 1, none, some 2]).2.1 (some 1) [none, some 2] rfl,
    (cumulative_sums_recurrence [some 1, none, some 2]).2.2.1 0 (by norm_num),
    (cumulative_sums_recurrence [some 1, none, some 2]).2.2.2 (by
      intro v hv
      fin_cases hv <;> norm_num [fillZero])⟩

/-- One row of a measurement feed after column-name and type
normalization: a join key (flow or compression identity), a production
date, and one value column (a missing or unparseable value is `none`). -/
structure FeedRow where
  key : String
  date : ℕ
  val : Option ℚ
deriving DecidableEq

/-- Lexicographic (key, date) order used by the feed sorts and the spine
sort. -/
def strNatLe (a b : String × ℕ) : Prop :=
  a.1 < b.1 ∨ (a.1 = b.1 ∧ a.2 ≤ b.2)

instance : DecidableRel strNatLe := fun a b => by
  unfold strNatLe
  infer_instance

instance : IsTotal (String × ℕ) strNatLe := by
  constructor
  intro a b
  rcases lt_trichotomy a.1 b.1 with h | h | h
  · exact Or.inl (Or.inl h)
  · rcases le_total a.2 b.2 with h2 | h2
    · exact Or.inl (Or.inr ⟨h, h2⟩)
    · exact Or.inr (Or.inr ⟨h.symm, h2⟩)
  · exact Or.inr (Or.inl h)

instance : IsTrans (String × ℕ) strNatLe := by
  constructor
  intro a b c hab hbc
  rcases hab with h1 | ⟨h1, h1'⟩
  · rcases hbc with h2 | ⟨h2, h2'⟩
    · exact Or.inl (lt_trans h1 h2)
    · exact Or.inl (h2 ▸ h1)
  · rcases hbc with h2 | ⟨h2, h2'⟩
    · exact Or.inl (h1 ▸ h2)
    · exact Or.inr ⟨h1.trans h2, le_trans h1' h2'⟩

/-- The distinct (key, date) pairs of a feed, in ascending sort order —
the group keys of the pandas `sort_values(...).groupby(...)` pipeline. -/
def feedPairs (rows : List FeedRow) : List (String × ℕ) :=
  List.insertionSort strNatLe ((rows.map fun r => (r.key, r.date)).dedup)

/-- Pandas `groupby(...).agg("last")` for one (key, date) group: the last
non-null value among the group's rows in order (missing if every value in
the group is null). -/
def lastNonNullVal (rows : List FeedRow) (k : String) (d : ℕ) : Option ℚ :=
  rows.foldl
    (fun acc r =>
      if r.key = k ∧ r.date = d then
        match r.val with
        | some v => some v
        | none => acc
      else acc)
    none

/-- The `sort_values([key, date]).groupby([key, date]).agg("last")`
deduplication applied by the daily loader to each feed
(src/run_daily.py lines 76-80 and the first-generation pull functions in
src/cda.py lines 230-234). -/
def dedup_last (rows : List FeedRow) : List FeedRow :=
  (feedPairs rows).map fun p => ⟨p.1, p.2, lastNonNullVal rows p.1 p.2⟩

/-- `pull_ecf` of the daily loader (src/run_daily.py lines 47-81):
normalizes and deduplicates the feed. -/
def pull_ecf_daily (rows : List FeedRow) : List FeedRow :=
  dedup_last rows

/-- Second-generation `pull_ecf` of the full-history pipeline
(src/cda.py lines 1065-1094): normalizes column names and types — the
identity in this typed embedding — and performs no (key, date)
deduplication, so every fetched row is passed to the merge. -/
def pull_ecf_full (rows : List FeedRow) : List FeedRow :=
  rows

/-- A feed holds exactly one row per (key, date) pair. -/
def oneRowPerKeyDate (rows : List FeedRow) : Prop :=
  (rows.map fun r => (r.key, r.date)).Nodup

instance (rows : List FeedRow) : Decidable (oneRowPerKeyDate rows) := by
  unfold oneRowPerKeyDate
  infer_instance

/-- C6 counterexample: the full-history `pull_ecf` (src/cda.py line 1065)
does not deduplicate — a feed with two rows for the key-date pair
("W", 3) still has two rows for that pair before the left-join onto the
spine, so it is not the case that every feed is reduced to exactly one
row per (key, date). -/
theorem full_history_ecf_not_deduplicated :
    ¬ oneRowPerKeyDate (pull_ecf_full [⟨"W", 3, some 1⟩, ⟨"W", 3, some 2⟩]) ∧
      (pull_ecf_full [⟨"W", 3, some 1⟩, ⟨"W", 3, some 2⟩]).length = 2 := by
  constructor
  · decide
  · rfl

theorem dedup_last_pairs (rows : List FeedRow) :
    (pull_ecf_daily rows).map (fun r => (r.key, r.date)) = feedPairs rows := by
  unfold pull_ecf_daily dedup_last
  rw [List.map_map]
  have hcomp : ((fun r : FeedRow => (r.key, r.date)) ∘ fun p : String × ℕ =>
      (⟨p.1, p.2, lastNonNullVal rows p.1 p.2⟩ : FeedRow)) = id := by
    funext p
    cases p
    rfl
  rw [hcomp, List.map_id]

/-- C6 amended: in the daily loader each feed is deduplicated to exactly
one row per (key, date) pair before the left-join onto the spine, the
surviving value for a pair being the last non-null value of that pair's
rows in sort order (pandas groupby-"last" skips nulls, so a trailing null
row does not win); every key-date pair of the raw feed survives; but the
second-generation full-history pull functions pass the feed to the merge
without any deduplication, preserving every row. -/
theorem daily_feed_deduplication :
    ∀ rows : List FeedRow,
      oneRowPerKeyDate (pull_ecf_daily rows) ∧
        (∀ r ∈ pull_ecf_daily rows, r.val = lastNonNullVal rows r.key r.date) ∧
        (∀ (k : String) (d : ℕ),
          (∃ r ∈ rows, r.key = k ∧ r.date = d) ↔
            ∃ r ∈ pull_ecf_daily rows, r.key = k ∧ r.date = d) ∧
        (pull_ecf_full rows).length = rows.length := by
  intro rows
  refine ⟨?_, ?_, ?_, rfl⟩
  · unfold oneRowPerKeyDate
    rw [dedup_last_pairs]
    exact (List.perm_insertionSort strNatLe _).nodup_iff.mpr (List.nodup_dedup _)
  · intro r hr
    rcases List.mem_map.mp hr with ⟨p, hp, rfl⟩
    rfl
  · intro k d
    constructor
    · rintro ⟨r, hr, hk, hd⟩
      refine ⟨⟨k, d, lastNonNullVal rows k d⟩, ?_, rfl, rfl⟩
      apply List.mem_map.mpr
      refine ⟨(k, d), ?_, rfl⟩
      unfold feedPairs
      rw [List.mem_insertionSort, List.mem_dedup]
      exact List.mem_map.mpr ⟨r, hr, by rw [hk, hd]⟩
    · rintro ⟨r, hr, hk, hd⟩
      rcases List.mem_map.mp hr with ⟨p, hp, rfl⟩
      unfold feedPairs at hp
      rw [List.mem_insertionSort, List.mem_dedup] at hp
      rcases List.mem_map.mp hp with ⟨r0, hr0, hpr⟩
      have h1 : r0.key = p.1 := congrArg Prod.fst hpr
      have h2 : r0.date = p.2 := congrArg Prod.snd hpr
      exact ⟨r0, hr0, h1.trans hk, h2.trans hd⟩

/-- Witness for C6 (amended) on a feed with a null row followed by a
non-null row for the same pair: the deduplicated feed contains the
non-null value. -/
theorem daily_feed_deduplication_witness :
    FeedRow.mk "W" 3 (some 1) ∈ pull_ecf_daily [⟨"W", 3, none⟩, ⟨"W", 3, some 1⟩] ∧
      (FeedRow.mk "W" 3 (some 1)).val =
        lastNonNullVal [⟨"W", 3, none⟩, ⟨"W", 3, some 1⟩] "W" 3 :=
  ⟨by decide,
    (daily_feed_deduplication [⟨"W", 3, none⟩, ⟨"W", 3, some 1⟩]).2.1
      (FeedRow.mk "W" 3 (some 1)) (by decide)⟩

/-- One row of the well registry mapping (PCE_WM, src/cda.py lines
1031-1063), already string-normalized and deduplicated on flow
identity. -/
structure WellMapRow where
  wellName : String
  gasId : String
  pressuresId : String
deriving DecidableEq

/-- Dates of every row of one feed keyed to a given identity
(src/cda.py lines 1321-1354): the matching rows' dates are collected
whether or not their value is null. -/
def feedDatesFor (k : String) (rows : List FeedRow) : List ℕ :=
  (rows.filter fun r => r.key == k).map fun r => r.date

/-- All dates collected for one well across the seven feeds
(src/cda.py lines 1316-1354): ECF and GasWH by flow identity; CGR, WGR,
pressures, allocations and allocated water by compression identity. -/
def all_dates_for_well (w : WellMapRow)
    (ecf gaswh cgr wgr pressures alloc allocWater : List FeedRow) : List ℕ :=
  feedDatesFor w.gasId ecf ++ feedDatesFor w.gasId gaswh ++
    feedDatesFor w.pressuresId cgr ++ feedDatesFor w.pressuresId wgr ++
    feedDatesFor w.pressuresId pressures ++ feedDatesFor w.pressuresId alloc ++
    feedDatesFor w.pressuresId allocWater

/-- Minimum of a list of collected dates (none for an empty list). -/
def minDate : List ℕ → Option ℕ
  | [] => none
  | d :: ds => some ((minDate ds).elim d (min d))

/-- The fixed global default start date 2009-01-01, encoded as day 0 of
the date scale. -/
def default_start_date : ℕ := 0

/-- `get_first_production_dates` for one well (src/cda.py lines
1300-1391): the minimum collected date across all seven feeds, falling
back to the global default when no feed has any row keyed to the well. -/
def get_first_production_date (w : WellMapRow)
    (ecf gaswh cgr wgr pressures alloc allocWater : List FeedRow) : ℕ :=
  (minDate (all_dates_for_well w ecf gaswh cgr wgr pressures alloc allocWater)).getD
    default_start_date

/-- Dates of the rows with a non-null value keyed to a given identity. -/
def feedDatesNonNullFor (k : String) (rows : List FeedRow) : List ℕ :=
  (rows.filter fun r => r.key == k && r.val.isSome).map fun r => r.date

/-- First-production date as the specification words it, stated for
comparison with `get_first_production_date`: the minimum date over all
seven feeds on which a row with a non-null value keyed to the well
exists, with the same default fallback. -/
def first_production_date_spec (w : WellMapRow)
    (ecf gaswh cgr wgr pressures alloc allocWater : List FeedRow) : ℕ :=
  (minDate (feedDatesNonNullFor w.gasId ecf ++ feedDatesNonNullFor w.gasId gaswh ++
      feedDatesNonNullFor w.pressuresId cgr ++ feedDatesNonNullFor w.pressuresId wgr ++
      feedDatesNonNullFor w.pressuresId pressures ++
      feedDatesNonNullFor w.pressuresId alloc ++
      feedDatesNonNullFor w.pressuresId allocWater)).getD
    default_start_date

/-- C7 counterexample: for a well whose only feed row is an ECF row with a
null value on day 5, the code takes day 5 as the first-production date —
it never inspects the value — while the claimed rule (minimum date with a
non-null value, else the global default) gives the default day 0. -/
theorem first_production_date_ignores_nullness :
    get_first_production_date ⟨"W", "G", "P"⟩ [⟨"G", 5, none⟩] [] [] [] [] [] [] = 5 ∧
      first_production_date_spec ⟨"W", "G", "P"⟩ [⟨"G", 5, none⟩] [] [] [] [] [] [] =
        default_start_date ∧
      get_first_production_date ⟨"W", "G", "P"⟩ [⟨"G", 5, none⟩] [] [] [] [] [] [] ≠
        first_production_date_spec ⟨"W", "G", "P"⟩ [⟨"G", 5, none⟩] [] [] [] [] [] [] := by
  refine ⟨by decide, by decide, by decide⟩

/-- One row of the daily spine: identities, well name, date (static
attributes omitted — they are copied verbatim from the mapping row). -/
structure SpineRow where
  gasId : String
  pressuresId : String
  wellName : String
  date : ℕ
deriving DecidableEq

/-- The `sort_values(["Well Name", "ProdDate"])` order on spine rows. -/
def spineLe (a b : SpineRow) : Prop :=
  strNatLe (a.wellName, a.date) (b.wellName, b.date)

instance : DecidableRel spineLe := fun a b => by
  unfold spineLe
  infer_instance

instance : IsTotal SpineRow spineLe := by
  constructor
  intro a b
  exact IsTotal.total (r := strNatLe) _ _

instance : IsTrans SpineRow spineLe := by
  constructor
  intro a b c hab hbc
  exact IsTrans.trans (r := strNatLe) _ _ _ hab hbc

/-- Per-well date spine (src/cda.py lines 1403-1436): one row per calendar
day from the well's first date through the global cutoff, inclusive. -/
def spine_for_well (w : WellMapRow) (first globalEnd : ℕ) : List SpineRow :=
  (List.range' first (globalEnd + 1 - first)).map fun d =>
    ⟨w.gasId, w.pressuresId, w.wellName, d⟩

/-- `build_optimized_spine` (src/cda.py lines 1393-1448): the per-well
spines anchored at each well's first-production date, concatenated and
sorted by well name then date. -/
def build_optimized_spine (mapping : List WellMapRow)
    (ecf gaswh cgr wgr pressures alloc allocWater : List FeedRow)
    (globalEnd : ℕ) : List SpineRow :=
  List.insertionSort spineLe
    (mapping.flatMap fun w =>
      spine_for_well w
        (get_first_production_date w ecf gaswh cgr wgr pressures alloc allocWater)
        globalEnd)

theorem minDate_eq_none (l : List ℕ) : minDate l = none → l = [] := by
  cases l with
  | nil => intro _; rfl
  | cons d ds => intro h; simp [minDate] at h

theorem minDate_is_min :
    ∀ (l : List ℕ) (m : ℕ), minDate l = some m → m ∈ l ∧ ∀ d ∈ l, m ≤ d := by
  intro l
  induction l with
  | nil => intro m h; simp [minDate] at h
  | cons d ds ih =>
    intro m h
    cases hds : minDate ds with
    | none =>
      have hnil : ds = [] := minDate_eq_none ds hds
      subst hnil
      rw [minDate, hds] at h
      simp only [Option.elim] at h
      have hm : d = m := Option.some.inj h
      subst hm
      exact ⟨List.mem_cons_self _ _, by intro x hx; simp at hx; omega⟩
    | some m' =>
      rw [minDate, hds] at h
      simp only [Option.elim] at h
      have hm : min d m' = m := Option.some.inj h
      rcases ih m' hds with ⟨hmem, hle⟩
      constructor
      · rcases le_total d m' with hcase | hcase
        · have : m = d := by omega
          simp [this]
        · have : m = m' := by omega
          exact this ▸ List.mem_cons_of_mem _ hmem
      · intro x hx
        rcases List.mem_cons.mp hx with rfl | hx'
        · omega
        · have := hle x hx'
          omega

theorem countP_beq_of_nodup :
    ∀ (l : List ℕ), l.Nodup → ∀ d : ℕ,
      l.countP (fun x => x == d) = if d ∈ l then 1 else 0 := by
  intro l
  induction l with
  | nil => intro _ d; simp
  | cons x xs ih =>
    intro hnd d
    have hx : x ∉ xs := (List.nodup_cons.mp hnd).1
    have ih' := ih (List.nodup_cons.mp hnd).2 d
    rw [List.countP_cons]
    by_cases hxd : x = d
    · subst hxd
      simp [ih', hx]
    · simp [ih', hxd, Ne.symm hxd]

theorem countP_spine_for_well (w : WellMapRow) (first globalEnd d : ℕ) :
    (spine_for_well w first globalEnd).countP
        (fun r => r.wellName == w.wellName && r.date == d) =
      if first ≤ d ∧ d ≤ globalEnd then 1 else 0 := by
  unfold spine_for_well
  rw [List.countP_map]
  have hpred : ((fun r : SpineRow => r.wellName == w.wellName && r.date == d) ∘
      fun dd => (⟨w.gasId, w.pressuresId, w.wellName, dd⟩ : SpineRow)) =
      fun dd => dd == d := by
    funext dd
    simp
  rw [hpred, countP_beq_of_nodup _ (List.nodup_range' _ _) d]
  by_cases hd : d ∈ List.range' first (globalEnd + 1 - first)
  · have hd' := List.mem_range'_1.mp hd
    have : first ≤ d ∧ d ≤ globalEnd := by omega
    simp [hd, this]
  · have hd' : ¬ (first ≤ d ∧ d < first + (globalEnd + 1 - first)) :=
      fun hc => hd (List.mem_range'_1.mpr hc)
    have : ¬ (first ≤ d ∧ d ≤ globalEnd) := by omega
    simp [hd, this]

theorem countP_flatMap_unique_name
    (f : WellMapRow → List SpineRow)
    (hname : ∀ x : WellMapRow, ∀ r ∈ f x, r.wellName = x.wellName)
    (p : SpineRow → Bool)
    (w : WellMapRow)
    (hp : ∀ r : SpineRow, p r = true → r.wellName = w.wellName) :
    ∀ mapping : List WellMapRow, w ∈ mapping →
      (mapping.map fun x => x.wellName).Nodup →
      (mapping.flatMap f).countP p = (f w).countP p := by
  intro mapping
  induction mapping with
  | nil => intro hw _; cases hw
  | cons x xs ih =>
    intro hw hnd
    have hnd2 : (x.wellName :: xs.map fun y => y.wellName).Nodup := by simpa using hnd
    have hhead : x.wellName ∉ xs.map fun y => y.wellName := (List.nodup_cons.mp hnd2).1
    have htail : (xs.map fun y => y.wellName).Nodup := (List.nodup_cons.mp hnd2).2
    rw [List.flatMap_cons, List.countP_append]
    rcases List.mem_cons.mp hw with rfl | hw'
    · have hz : (xs.flatMap f).countP p = 0 := by
        rw [List.countP_eq_zero]
        intro r hr hpr
        rcases List.mem_flatMap.mp hr with ⟨y, hy, hry⟩
        have h1 : r.wellName = y.wellName := hname y r hry
        have h2 : r.wellName = w.wellName := hp r hpr
        have hmem : w.wellName ∈ xs.map fun y => y.wellName := by
          rw [← h2, h1]
          exact List.mem_map_of_mem _ hy
        exact hhead hmem
      rw [hz, Nat.add_zero]
    · have hz : (f x).countP p = 0 := by
        rw [List.countP_eq_zero]
        intro r hr hpr
        have h1 : r.wellName = x.wellName := hname x r hr
        have h2 : r.wellName = w.wellName := hp r hpr
        have hmem : x.wellName ∈ xs.map fun y => y.wellName := by
          rw [← h1, h2]
          exact List.mem_map_of_mem _ hw'
        exact hhead hmem
      rw [hz, ih hw' htail, Nat.zero_add]

/-- C7 amended: for a registry whose well names are distinct, the
first-production date of a well is the minimum date over all rows keyed to
the well in any of the seven feeds — whether or not the row's value is
null — falling back to the fixed global default start date when no feed
has any row for the well; and the emitted spine is sorted by well name
then date and contains exactly one row for the well on every calendar day
from that first date through the global cutoff and none outside it (no
gaps, no duplicates). -/
theorem optimized_spine_shape :
    ∀ (mapping : List WellMapRow)
      (ecf gaswh cgr wgr pressures alloc allocWater : List FeedRow)
      (globalEnd : ℕ),
      (mapping.map fun x => x.wellName).Nodup →
      List.Sorted spineLe
          (build_optimized_spine mapping ecf gaswh cgr wgr pressures alloc
            allocWater globalEnd) ∧
        ∀ w ∈ mapping,
          (all_dates_for_well w ecf gaswh cgr wgr pressures alloc allocWater = [] →
            get_first_production_date w ecf gaswh cgr wgr pressures alloc allocWater =
              default_start_date) ∧
            (∀ m : ℕ,
              minDate (all_dates_for_well w ecf gaswh cgr wgr pressures alloc
                  allocWater) = some m →
                get_first_production_date w ecf gaswh cgr wgr pressures alloc
                    allocWater = m ∧
                  m ∈ all_dates_for_well w ecf gaswh cgr wgr pressures alloc allocWater ∧
                  ∀ d ∈ all_dates_for_well w ecf gaswh cgr wgr pressures alloc
                      allocWater, m ≤ d) ∧
            (∀ d : ℕ,
              (build_optimized_spine mapping ecf gaswh cgr wgr pressures alloc
                    allocWater globalEnd).countP
                  (fun r => r.wellName == w.wellName && r.date == d) =
                if get_first_production_date w ecf gaswh cgr wgr pressures alloc
                      allocWater ≤ d ∧ d ≤ globalEnd then 1
                else 0) := by
  intro mapping ecf gaswh cgr wgr pressures alloc allocWater globalEnd hnodup
  constructor
  · exact List.sorted_insertionSort spineLe _
  · intro w hw
    refine ⟨?_, ?_, ?_⟩
    · intro hempty
      rw [get_first_production_date, hempty]
      rfl
    · intro m hm
      exact ⟨by rw [get_first_production_date, hm]; rfl,
        (minDate_is_min _ m hm).1, (minDate_is_min _ m hm).2⟩
    · intro d
      unfold build_optimized_spine
      rw [((List.perm_insertionSort spineLe _).countP_eq _)]
      rw [countP_flatMap_unique_name
        (fun w' => spine_for_well w'
          (get_first_production_date w' ecf gaswh cgr wgr pressures alloc allocWater)
          globalEnd)
        (by
          intro x r hr
          rcases List.mem_map.mp hr with ⟨dd, _, rfl⟩
          rfl)
        (fun r => r.wellName == w.wellName && r.date == d)
        w
        (by
          intro r hpr
          have h1 := (Bool.and_eq_true _ _).mp hpr
          exact eq_of_beq h1.1)
        mapping hw hnodup]
      exact countP_spine_for_well w _ globalEnd d

/-- Witness for C7 (amended) on a one-well registry whose single ECF row
is on day 2 and cutoff day 3: the spine has exactly one row for that well
on day 2. -/
theorem optimized_spine_shape_witness :
    (build_optimized_spine [⟨"W", "G", "P"⟩] [⟨"G", 2, some 1⟩] [] [] [] [] [] []
        3).countP
      (fun r => r.wellName == (WellMapRow.mk "W" "G" "P").wellName && r.date == 2) =
      1 := by
  have h :=
    ((optimized_spine_shape [⟨"W", "G", "P"⟩] [⟨"G", 2, some 1⟩] [] [] [] [] [] [] 3
          (by decide)).2
      (WellMapRow.mk "W" "G" "P") (by decide)).2.2 2
  exact h.trans (by decide)

/-- Left-join lookup of one value feed at (key, date): the first matching
row's value, NULL when no row matches or the matching row's value is
null. -/
def lookupFeedVal (rows : List FeedRow) (k : String) (d : ℕ) : Option ℚ :=
  match rows.find? (fun r => r.key == k && r.date == d) with
  | some r => r.val
  | none => none

/-- Elementwise product with NaN/NULL propagation, as pandas computes
`GasWH_Production * CGR_Ratio` (src/cda.py line 1502, src/run_daily.py
lines 358-360): the result is missing whenever either operand is
missing — never coerced to zero. -/
def optMul (a b : Option ℚ) : Option ℚ :=
  match a, b with
  | some x, some y => some (x * y)
  | _, _ => none

/-- One wide merged well-day record (the fields involved in the derived
wellhead condensate, plus the other single-valued ratio feeds). -/
structure JoinedRow where
  wellName : String
  date : ℕ
  ecf : Option ℚ
  gasWH : Option ℚ
  cgr : Option ℚ
  wgr : Option ℚ
  condWH : Option ℚ
deriving DecidableEq

/-- `process_well_batch` (src/cda.py lines 1450-1518) restricted to the
fields feeding the derived condensate: every spine row is left-joined with
the feeds (ECF and wellhead gas by flow identity, CGR and WGR by
compression identity) and Condensate_WH_Production is computed as
wellhead gas × CGR elementwise. -/
def process_well_batch (spineRows : List SpineRow)
    (ecf gaswh cgr wgr : List FeedRow) : List JoinedRow :=
  spineRows.map fun s =>
    { wellName := s.wellName
      date := s.date
      ecf := lookupFeedVal ecf s.gasId s.date
      gasWH := lookupFeedVal gaswh s.gasId s.date
      cgr := lookupFeedVal cgr s.pressuresId s.date
      wgr := lookupFeedVal wgr s.pressuresId s.date
      condWH := optMul (lookupFeedVal gaswh s.gasId s.date)
        (lookupFeedVal cgr s.pressuresId s.date) }

/-- C9: for every well-day row produced by the merge engine, the derived
wellhead condensate is null whenever the row's wellhead gas volume or
condensate-gas ratio is null — never coerced to zero — and otherwise
equals exactly their product. -/
theorem derived_condensate_null_safe :
    ∀ (spineRows : List SpineRow) (ecf gaswh cgr wgr : List FeedRow),
      ∀ j ∈ process_well_batch spineRows ecf gaswh cgr wgr,
        (j.condWH = none ↔ j.gasWH = none ∨ j.cgr = none) ∧
          ∀ x y : ℚ, j.gasWH = some x → j.cgr = some y →
            j.condWH = some (x * y) := by
  intro spineRows ecf gaswh cgr wgr j hj
  rcases List.mem_map.mp hj with ⟨s, _, rfl⟩
  constructor
  · cases hg : lookupFeedVal gaswh s.gasId s.date <;>
      cases hc : lookupFeedVal cgr s.pressuresId s.date <;>
        simp [optMul, hg, hc]
  · intro x y hx hy
    dsimp only at hx hy ⊢
    rw [hx, hy]
    rfl

/-- Witness for C9 on a one-day spine with wellhead gas 2 and CGR 4. -/
theorem derived_condensate_null_safe_witness :
    (JoinedRow.mk "W" 3 none (some 2) (some 4) none
        (optMul (some 2) (some 4))).condWH = some (2 * 4) :=
  (derived_condensate_null_safe [⟨"G", "P", "W", 3⟩] [] [⟨"G", 3, some 2⟩]
      [⟨"P", 3, some 4⟩] []
      (JoinedRow.mk "W" 3 none (some 2) (some 4) none (optMul (some 2) (some 4)))
      (by
        apply List.mem_singleton.mpr
        rfl)).2 2 4 rfl rfl

/-- One daily record of a well as seen by `filter_to_first_production`:
date, stored wellhead gas, gathered gas, and the remaining measurement
columns (untouched by the routine) abstracted as a list. -/
structure ProdRow where
  date : ℕ
  gasWH : Option ℚ
  gathered : Option ℚ
  others : List (Option ℚ)
deriving DecidableEq

/-- Effective gas used to locate the first production day
(src/production_update.py lines 191-207): wellhead and gathered gas
null-filled with 0; a wellhead value in (0, 2] or equal to 0 is replaced
by the (filled) gathered value. -/
def effective_gas (r : ProdRow) : ℚ :=
  if 0 < fillZero r.gasWH ∧ fillZero r.gasWH ≤ 2 then fillZero r.gathered
  else if fillZero r.gasWH = 0 then fillZero r.gathered
  else fillZero r.gasWH

/-- The destructive per-row substitution of `filter_to_first_production`
(src/production_update.py lines 218-227): the stored wellhead gas field is
overwritten via the substitution rule; no other field changes. -/
def substitute_row (r : ProdRow) : ProdRow :=
  { r with gasWH := substituteGasWH r.gasWH r.gathered }

/-- `filter_to_first_production` for one well (src/production_update.py
lines 171-247): find the first row with positive effective gas; a well
with none is dropped; otherwise the rows from that row's date onward are
kept and each retained row's wellhead gas is destructively replaced. -/
def filter_to_first_production (rows : List ProdRow) : List ProdRow :=
  match rows.find? (fun r => decide (0 < effective_gas r)) with
  | none => []
  | some r0 => (rows.filter fun r => decide (r0.date ≤ r.date)).map substitute_row

/-- A stored wellhead gas value triggering the substitution: null, zero,
or positive but at most 2 units. -/
def wellheadLowOrMissing (v : Option ℚ) : Prop :=
  v = none ∨ v = some 0 ∨ ∃ g : ℚ, v = some g ∧ 0 < g ∧ g ≤ 2

/-- C10: every row retained by the first-production filter is the original
row with only its stored wellhead gas field rewritten: when the original
wellhead gas is null, zero, or positive but ≤ 2, the field now holds that
day's gathered value (even when the gathered value is itself null), and
otherwise it keeps the original value; date, gathered volume and all other
columns are unchanged, so the originally measured wellhead gas of a
substituted day is preserved nowhere in the output record, and every
downstream derivation reads the substituted series. -/
theorem first_production_filter_overwrites_gas :
    ∀ (rows : List ProdRow) (r : ProdRow),
      r ∈ filter_to_first_production rows →
        ∃ r0 ∈ rows,
          r = substitute_row r0 ∧
            r.date = r0.date ∧ r.gathered = r0.gathered ∧ r.others = r0.others ∧
            (wellheadLowOrMissing r0.gasWH → r.gasWH = r0.gathered) ∧
            (¬ wellheadLowOrMissing r0.gasWH → r.gasWH = r0.gasWH) := by
  intro rows r hr
  unfold filter_to_first_production at hr
  cases hfind : rows.find? (fun r => decide (0 < effective_gas r)) with
  | none => rw [hfind] at hr; cases hr
  | some r0 =>
    rw [hfind] at hr
    rcases List.mem_map.mp hr with ⟨r1, hr1, rfl⟩
    have hr1mem : r1 ∈ rows := List.mem_of_mem_filter hr1
    refine ⟨r1, hr1mem, rfl, rfl, rfl, rfl, ?_, ?_⟩
    · intro hlow
      rcases hlow with hnone | hzero | ⟨g, hg, hg1, hg2⟩
      · simp [substitute_row, substituteGasWH, hnone]
      · simp [substitute_row, substituteGasWH, hzero]
      · simp [substitute_row, substituteGasWH, hg, hg1, hg2]
    · intro hnot
      cases hgw : r1.gasWH with
      | none => exact absurd (Or.inl hgw) hnot
      | some g =>
        have hne0 : ¬ g = 0 := fun h => hnot (Or.inr (Or.inl (by rw [hgw, h])))
        have hnotin : ¬ (0 < g ∧ g ≤ 2) := fun h =>
          hnot (Or.inr (Or.inr ⟨g, hgw, h⟩))
        simp [substitute_row, substituteGasWH, hgw, hne0, hnotin]

/-- Witness for C10: a single-day well with wellhead gas 1 (in (0, 2]) and
gathered gas 7 is retained with its wellhead gas field overwritten by 7. -/
theorem first_production_filter_overwrites_gas_witness :
    ∃ r0 ∈ [ProdRow.mk 0 (some 1) (some 7) []],
      ProdRow.mk 0 (some 7) (some 7) [] = substitute_row r0 ∧
        (ProdRow.mk 0 (some 7) (some 7) []).date = r0.date ∧
        (ProdRow.mk 0 (some 7) (some 7) []).gathered = r0.gathered ∧
        (ProdRow.mk 0 (some 7) (some 7) []).others = r0.others ∧
        (wellheadLowOrMissing r0.gasWH →
          (ProdRow.mk 0 (some 7) (some 7) []).gasWH = r0.gathered) ∧
        (¬ wellheadLowOrMissing r0.gasWH →
          (ProdRow.mk 0 (some 7) (some 7) []).gasWH = r0.gasWH) :=
  first_production_filter_overwrites_gas [ProdRow.mk 0 (some 1) (some 7) []]
    (ProdRow.mk 0 (some 7) (some 7) []) (by decide)
